import Mathlib

/-!
Shallow embedding of the exam-helper multi-agent workflow (Python sources under
`app/`): the orchestrator node (`app/nodes/orchestrator_node.py`), the intent
detector (`app/utils/intent_detector.py`), the conversation store
(`app/utils/conversation_store.py`), the capability handlers
(`app/agents/*_agent*.py`) and the workflow coordinator
(`app/workflows/multi_agentic_workflow.py`).

External effects are made explicit: every LLM / tool-loop invocation is passed
in as an `Except String _` value (`.error e` models the call raising an
exception whose message is `e`), file-system state is passed as an explicit
store value, and wall-clock timestamps are passed as arguments.
-/

namespace ExamHelper

/-! ### Python string primitives

Lean's bundled `String.toLower`/`String.trim`/`String.replace` are defined by
well-founded recursion over byte positions and do not reduce in the kernel, so
the Python string operations used by the sources are modelled directly on the
underlying character list. -/

/-- Python `str.lower()` (the sources only compare ASCII labels). -/
def pyLower (s : String) : String := ⟨s.data.map Char.toLower⟩

/-- Python `str.strip()`: remove leading and trailing whitespace. -/
def pyStrip (s : String) : String :=
  ⟨((s.data.dropWhile Char.isWhitespace).reverse.dropWhile Char.isWhitespace).reverse⟩

/-- Python `str.replace(old, new)` for a one-character pattern and a
one-character replacement (the only form the sources use): with a pattern of
length one, replacing every non-overlapping occurrence is exactly a character
map. -/
def pyReplaceChar (s : String) (old new : Char) : String :=
  ⟨s.data.map (fun c => if c = old then new else c)⟩

/-- Python string comparison on two character lists: lexicographic by code
point, shorter prefix first. -/
def chListLt : List Char → List Char → Bool
  | [], [] => false
  | [], _ :: _ => true
  | _ :: _, [] => false
  | a :: as, b :: bs => if a < b then true else if b < a then false else chListLt as bs

/-- Python `a <= b` on strings. -/
def pyStrLe (a b : String) : Bool := !(chListLt b.data a.data)

/-! ### Message model

Embeds the langchain message objects the sources manipulate.  An
`AIMessage.content` may be a plain string or a list of content blocks (dicts
with a `"type"` field, or plain strings); `HumanMessage`/`ToolMessage` contents
are plain strings in this code base. -/

/-- One element of a list-valued message content. -/
inductive Block where
  /-- a dict block with `"type": "text"`; `text` is its `"text"` entry -/
  | textBlock (text : String)
  /-- a plain string appearing in the content list -/
  | strBlock (s : String)
  /-- a dict block of any other type; `text` is its `"text"` entry
      (`""` when the dict has none) -/
  | otherBlock (text : String)
deriving Repr, DecidableEq

/-- Message content: a plain string or a list of blocks. -/
inductive Content where
  | str (s : String)
  | blocks (bs : List Block)
deriving Repr, DecidableEq

/-- Python truthiness of a message content (`if msg.content:`): a non-empty
string, or a non-empty list. -/
def Content.isTruthy : Content → Bool
  | .str s => s ≠ ""
  | .blocks bs => !bs.isEmpty

/-- A langchain message as used by the sources. `hasToolCalls` models
`bool(getattr(msg, "tool_calls", None))` on an `AIMessage`. -/
inductive Msg where
  | human (content : String)
  | ai (content : Content) (hasToolCalls : Bool)
  | tool (content : String)
deriving Repr, DecidableEq

/-! ### Intent detector — `app/utils/intent_detector.py`, `detect_intent` -/

/-- `detect_intent(message)`.  The single completion call
(`llm.invoke([...]).content`) is passed in as `reply`; `.error e` models any
exception raised inside the `try` block (including `get_llm` failing), which
the function catches and maps to `"unknown"`.  On a reply, the code takes
`response.content.strip().lower()` and accepts it only when it is exactly
`"explain"` or `"learn"`. -/
def detect_intent (reply : Except String String) : String :=
  match reply with
  | .error _ => "unknown"
  | .ok content =>
    let intent := pyLower (pyStrip content)
    if intent = "explain" ∨ intent = "learn" then intent else "unknown"

/-! ### Orchestrator node — `app/nodes/orchestrator_node.py` -/

/-- `OrchestratorNode._extract_text(content)`: a string is returned as is; a
list of blocks keeps the `"text"` of dicts whose type is `"text"` and plain
strings, joined with newlines (empty parts are kept). -/
def extract_text : Content → String
  | .str s => s
  | .blocks bs =>
    String.intercalate "\n" (bs.filterMap (fun b =>
      match b with
      | .textBlock t => some t
      | .strBlock s => some s
      | .otherBlock _ => none))

/-- The reply-extraction loop of `OrchestratorNode.process` (lines 64-75), run
over the already-reversed trace.  `ai` carries the running value of the
`ai_message` variable; the first `ToolMessage` with truthy content breaks the
loop, returning its content as `orchestrator_response`; a qualifying
`AIMessage` (truthy content, no tool calls) overwrites `ai` and the loop goes
on. Returns `(orchestrator_response, ai_message)` as of loop exit. -/
def extractLoop : List Msg → String → String × String
  | [], ai => ("", ai)
  | m :: rest, ai =>
    match m with
    | .tool c => if c ≠ "" then (c, ai) else extractLoop rest ai
    | .ai c tc =>
      if c.isTruthy && !tc then extractLoop rest (extract_text c)
      else extractLoop rest ai
    | .human _ => extractLoop rest ai

/-- The final reply `OrchestratorNode.process` computes from the agent's
message trace: run the loop over `reversed(messages)`, then
`if orchestrator_response == "": orchestrator_response = ai_message`. -/
def extractReply (msgs : List Msg) : String :=
  let p := extractLoop msgs.reverse ""
  if p.1 = "" then p.2 else p.1

/-! ### Workflow state — `app/agents/state.py` -/

/-- `ExamHelperState` (a `TypedDict`); `get_initial_state` populates every
key, so keyed `.get` accesses with defaults are total field reads. -/
structure ExamHelperState where
  messages : List Msg
  user_query : String
  user_intent : String
  session_summary : String
  turn_count : Nat
  current_response : Option String
  error : List String
  orchestrator_result : Option String
deriving Repr, DecidableEq

/-- `get_initial_state()`. -/
def get_initial_state : ExamHelperState :=
  { messages := [], user_query := "", user_intent := "unknown", session_summary := "",
    turn_count := 0, current_response := none, error := [], orchestrator_result := none }

/-- The partial state dict returned by a LangGraph node: a field is `some`
exactly when the node's returned dict contains that key.  The
`orchestrator_result` value is itself optional because the node stores Python
`None` under that key on failure. -/
structure NodeUpdate where
  messages : Option (List Msg)
  user_intent : Option String
  orchestrator_result : Option (Option String)
  error : Option (List String)
deriving Repr, DecidableEq

/-- Merge a node's partial dict into the state: a key present in the update
overwrites the channel.  (The `messages` channel's `add_messages` reducer
upserts by message id, which coincides with overwrite here because the node
returns the full trace `result["messages"]`, an extension of the input
list it was invoked on; no other channel declares a reducer.) -/
def applyUpdate (u : NodeUpdate) (s : ExamHelperState) : ExamHelperState :=
  { s with
    messages := u.messages.getD s.messages,
    user_intent := u.user_intent.getD s.user_intent,
    orchestrator_result := u.orchestrator_result.getD s.orchestrator_result,
    error := u.error.getD s.error }

/-! ### Orchestrator node, `process` — `app/nodes/orchestrator_node.py` -/

/-- The `user_msg` scan of `OrchestratorNode.process` (lines 43-47): walk the
trace backwards and take the content of the first `HumanMessage` found,
else `""`. -/
def lastHumanContent (msgs : List Msg) : String :=
  (msgs.reverse.findSome? (fun m =>
    match m with
    | .human c => some c
    | _ => none)).getD ""

/-- `OrchestratorNode.process(state)`.  The two external calls are explicit
parameters: `detectReply` is the completion reply consumed by `detect_intent`
(which never raises), and `agentOutcome` is the react-agent tool loop —
`.ok trace` stands for `agent.invoke(...)["messages"]`, while `.error e`
models any exception inside the `try` block (tool lookup, prompt building, or
the loop itself), which the node catches, returning
`{"orchestrator_result": None, "error": ["Orchestrator node failed: " + e]}`. -/
def orchestratorProcess (detectReply : Except String String)
    (agentOutcome : Except String (List Msg)) (s : ExamHelperState) : NodeUpdate :=
  let user_msg := lastHumanContent s.messages
  let current_intent :=
    if s.user_intent = "unknown" ∧ user_msg ≠ "" then detect_intent detectReply
    else s.user_intent
  match agentOutcome with
  | .ok resultMsgs =>
    { messages := some resultMsgs,
      user_intent := some current_intent,
      orchestrator_result := some (some (extractReply resultMsgs)),
      error := none }
  | .error e =>
    { messages := none,
      user_intent := none,
      orchestrator_result := some none,
      error := some ["Orchestrator node failed: " ++ e] }

/-! ### Workflow coordinator — `app/workflows/multi_agentic_workflow.py` -/

/-- Outcome of one `self.workflow.invoke(state, config)` call.  The compiled
graph's body is the single orchestrator node (the architecture documented on
`MultiAgentWorkflow`; the graph wiring itself is an unfinished Todo in the
source), so a completed invocation is determined by that node's two external
calls; `crash e` models `workflow.invoke` itself raising, which
`process_query` catches. -/
inductive TurnOutcome where
  | node (detectReply : Except String String) (agentOutcome : Except String (List Msg))
  | crash (e : String)

/-- The dict `process_query` returns: `response = none` models the
`"response"` key holding Python `None`; `error` is the `"error"` key, present
only on the except path. -/
structure QueryResult where
  success : Bool
  response : Option String
  error : Option String
deriving Repr, DecidableEq

/-- `MultiAgentWorkflow.process_query(user_message)` paired with the resulting
in-memory `self._state`.  The user message is appended and `user_query` set
before invocation (a mutation that survives even on the except path, since
`state` aliases `self._state`).  On the success path the response is
`final_state.get("orchestrator_result", "Hi there! What's up?")`; the
`orchestrator_result` key is always present (every state descends from
`get_initial_state`), so the `.get` default is dead and the response is the
key's value — possibly Python `None`.  The `_save_conversation()` call
(modelled separately as `saveMessages`/`save_conversation`) does not affect
the returned dict or the in-memory state. -/
def process_query (userMessage : String) (outcome : TurnOutcome)
    (s : ExamHelperState) : QueryResult × ExamHelperState :=
  let s1 := { s with messages := s.messages ++ [.human userMessage], user_query := userMessage }
  match outcome with
  | .crash e =>
    ({ success := false, response := some "Hi there! What's up?", error := some e }, s1)
  | .node d a =>
    let final := applyUpdate (orchestratorProcess d a s1) s1
    ({ success := true, response := final.orchestrator_result, error := none }, final)

/-- `MultiAgentWorkflow.chat`: `result.get("response", "Hi there! What's up?")`;
the `"response"` key is present on both return paths of `process_query`, so
`chat` returns its value — again possibly Python `None`. -/
def chat (res : QueryResult) : Option String := res.response

/-- A sequence of completed turns on one conversation: fold `process_query`
over the per-turn user messages and outcomes. -/
def runTurns : List (String × TurnOutcome) → ExamHelperState → ExamHelperState
  | [], s => s
  | (m, o) :: ts, s => runTurns ts (process_query m o s).2

/-! ### The reply-extraction policy, stated from the spec's words (C1) -/

/-- Spec side: the reply a `ToolMessage` offers (its content, when truthy). -/
def toolReplyOf : Msg → Option String
  | .tool c => if c ≠ "" then some c else none
  | _ => none

/-- Spec side: the reply an assistant message offers (its extracted text, when
its content is truthy and it carries no tool calls). -/
def aiReplyOf : Msg → Option String
  | .ai c tc => if c.isTruthy && !tc then some (extract_text c) else none
  | _ => none

/-- The extraction policy exactly as the claim states it: the content of the
last tool-output message with non-empty content if any, otherwise the text of
the LAST assistant message with non-empty content and no tool calls,
otherwise `""`. -/
def claimReply (msgs : List Msg) : String :=
  match (msgs.filterMap toolReplyOf).getLast? with
  | some c => c
  | none => ((msgs.filterMap aiReplyOf).getLast?).getD ""

/-- The amended policy: as `claimReply`, but the assistant fallback takes the
FIRST (earliest) qualifying assistant message of the trace. -/
def amendedReply (msgs : List Msg) : String :=
  match (msgs.filterMap toolReplyOf).getLast? with
  | some c => c
  | none => ((msgs.filterMap aiReplyOf).head?).getD ""

/-- Characterization of the extraction loop on an (already reversed) trace
`l`, with `ai` the value of the `ai_message` variable on entry: the final
reply is the first tool-offered reply of `l` if any, else the last
assistant-offered reply of `l`, else `ai`. -/
theorem extractLoop_spec (l : List Msg) (ai : String) :
    (if (extractLoop l ai).1 = "" then (extractLoop l ai).2 else (extractLoop l ai).1) =
      (match (l.filterMap toolReplyOf).head? with
       | some c => c
       | none => ((l.filterMap aiReplyOf).getLast?).getD ai) := by
  induction l generalizing ai with
  | nil => simp [extractLoop]
  | cons m rest ih =>
    cases m with
    | human c =>
      simpa [extractLoop, toolReplyOf, aiReplyOf] using ih ai
    | tool c =>
      by_cases hc : c = ""
      · subst hc
        simpa [extractLoop, toolReplyOf, aiReplyOf] using ih ai
      · simp [extractLoop, hc, toolReplyOf, aiReplyOf]
    | ai c tc =>
      by_cases hq : (c.isTruthy && !tc) = true
      · have h := ih (extract_text c)
        simp only [extractLoop, hq, if_true, List.filterMap_cons] at h ⊢
        simp only [toolReplyOf, aiReplyOf, hq, if_true]
        rw [h]
        cases htool : (rest.filterMap toolReplyOf).head? with
        | some c' => simp
        | none => simp [List.getLast?_cons]
      · have h := ih ai
        simp only [extractLoop, hq, if_false, List.filterMap_cons] at h ⊢
        simp only [toolReplyOf, aiReplyOf, hq]
        simpa using h

/-- The node's extraction agrees with the amended policy on every trace. -/
theorem extractReply_eq_amendedReply (msgs : List Msg) :
    extractReply msgs = amendedReply msgs := by
  have h := extractLoop_spec msgs.reverse ""
  unfold extractReply amendedReply
  rw [List.filterMap_reverse, List.filterMap_reverse, List.head?_reverse,
    List.getLast?_reverse] at h
  exact h

/-- C1, counterexample: on the trace `[assistant "a", assistant "b"]` (two
assistant messages with non-empty content and no tool calls, no tool-output
message), `OrchestratorNode.process` extracts `"a"` — the FIRST such
assistant message — while the claim's policy ("the last assistant message")
demands `"b"`. -/
theorem extractReply_takes_first_assistant_counterexample :
    extractReply [.ai (.str "a") false, .ai (.str "b") false] = "a" ∧
    claimReply [.ai (.str "a") false, .ai (.str "b") false] = "b" ∧
    extractReply [.ai (.str "a") false, .ai (.str "b") false] ≠
      claimReply [.ai (.str "a") false, .ai (.str "b") false] := by
  refine ⟨by decide, by decide, by decide⟩

/-- C1, amended: for every message trace, `OrchestratorNode.process` extracts
the final reply as follows — if any tool-output message with non-empty
content exists in the trace, the reply is the content of the last such
message; otherwise the reply is the text of the FIRST assistant message that
has non-empty content and no tool calls; if neither yields text the reply is
the empty string, and in every case a completed agent loop takes the node's
success path: the returned update stores that reply under
`orchestrator_result` and carries no error. -/
theorem extractReply_amended_policy (msgs : List Msg) (d : Except String String)
    (s : ExamHelperState) :
    extractReply msgs = amendedReply msgs ∧
    (orchestratorProcess d (.ok msgs) s).orchestrator_result =
      some (some (extractReply msgs)) ∧
    (orchestratorProcess d (.ok msgs) s).error = none := by
  refine ⟨extractReply_eq_amendedReply msgs, ?_, ?_⟩ <;> simp [orchestratorProcess]

/-- C2, code evaluation: no statement in the source ever writes `turn_count` —
`process_query` returns it exactly as it was on every outcome, and in
particular a completed round-trip on a fresh state leaves `turn_count = 0`
where the claim demands `1`. -/
theorem turn_count_never_incremented (msg : String) (o : TurnOutcome)
    (s : ExamHelperState) :
    (process_query msg o s).2.turn_count = s.turn_count ∧
    (process_query "hi" (.node (.ok "explain") (.ok []))
      get_initial_state).2.turn_count = 0 := by
  constructor
  · cases o <;> simp [process_query, applyUpdate]
  · decide

/-- C3, failing run: on a turn whose orchestrator node fails (its agent loop
raises `"boom"`), the node stores Python `None` under `orchestrator_result`,
so `final_state.get("orchestrator_result", "Hi there! What's up?")` finds the
key present and returns `None`: `process_query` reports success with a `None`
response and `chat` forwards that `None` — the fixed fallback sentence is not
substituted, contradicting the claim that the user always receives text or
the fallback. -/
theorem node_failure_yields_none_response :
    (process_query "hi" (.node (.ok "explain") (.error "boom")) get_initial_state).1 =
      { success := true, response := none, error := none } ∧
    chat (process_query "hi" (.node (.ok "explain") (.error "boom"))
      get_initial_state).1 = none := by
  exact ⟨by decide, by decide⟩

/-- One completed `process_query` call never moves `user_intent` away from a
non-`unknown` value: the node either keeps the existing intent (success) or
omits the key entirely (failure). -/
theorem process_query_preserves_intent (m : String) (o : TurnOutcome)
    (s : ExamHelperState) (h : s.user_intent ≠ "unknown") :
    (process_query m o s).2.user_intent = s.user_intent := by
  cases o with
  | crash e => simp [process_query]
  | node d a =>
    cases a with
    | ok msgs => simp [process_query, orchestratorProcess, applyUpdate, h]
    | error e => simp [process_query, orchestratorProcess, applyUpdate]

/-- Folding any number of turns over a state with non-`unknown` intent leaves
the intent unchanged. -/
theorem runTurns_preserves_intent (turns : List (String × TurnOutcome))
    (s : ExamHelperState) (h : s.user_intent ≠ "unknown") :
    (runTurns turns s).user_intent = s.user_intent := by
  induction turns generalizing s with
  | nil => rfl
  | cons t ts ih =>
    obtain ⟨m, o⟩ := t
    rw [runTurns]
    have h1 := process_query_preserves_intent m o s h
    rw [ih _ (by rw [h1]; exact h), h1]

/-- C4: once `user_intent` is `explain` or `learn`, `OrchestratorNode.process`
ignores the classifier entirely (its result does not depend on the completion
reply the classifier would consume) and returns the same intent, and no
sequence of subsequent turns on the same conversation changes it — in
particular it never returns to `unknown`. -/
theorem user_intent_sticky (s : ExamHelperState)
    (h : s.user_intent = "explain" ∨ s.user_intent = "learn") :
    (∀ d d' a, orchestratorProcess d a s = orchestratorProcess d' a s) ∧
    (∀ d a, (applyUpdate (orchestratorProcess d a s) s).user_intent = s.user_intent) ∧
    (∀ turns, (runTurns turns s).user_intent = s.user_intent) := by
  have hne : s.user_intent ≠ "unknown" := by
    rcases h with h | h <;> simp [h]
  refine ⟨?_, ?_, fun turns => runTurns_preserves_intent turns s hne⟩
  · intro d d' a
    cases a <;> simp [orchestratorProcess, hne]
  · intro d a
    cases a <;> simp [orchestratorProcess, applyUpdate, hne]

/-- Witness for `user_intent_sticky` at a concrete sticky state and a concrete
two-turn future. -/
theorem user_intent_sticky_witness :
    (runTurns [("hi", .node (.ok "learn") (.error "x")),
               ("more", .node (.error "t") (.ok [.ai (.str "ok") false]))]
      { get_initial_state with user_intent := "explain" }).user_intent = "explain" :=
  (user_intent_sticky { get_initial_state with user_intent := "explain" }
    (Or.inl rfl)).2.2
    [("hi", .node (.ok "learn") (.error "x")),
     ("more", .node (.error "t") (.ok [.ai (.str "ok") false]))]

/-- C5: `detect_intent` always yields one of `explain`, `learn`, `unknown`;
it returns the completion reply stripped-then-lowered exactly when that equals
one of the two labels, returns `unknown` on every other reply, and returns
`unknown` on an exception of the single (unretried) completion call instead
of raising; concretely `"Explain "` yields `explain` and `"banana"` yields
`unknown`. -/
theorem detect_intent_contract :
    (∀ r, detect_intent r = "explain" ∨ detect_intent r = "learn" ∨
      detect_intent r = "unknown") ∧
    (∀ s, pyLower (pyStrip s) = "explain" ∨ pyLower (pyStrip s) = "learn" →
      detect_intent (.ok s) = pyLower (pyStrip s)) ∧
    (∀ s, pyLower (pyStrip s) ≠ "explain" → pyLower (pyStrip s) ≠ "learn" →
      detect_intent (.ok s) = "unknown") ∧
    (∀ e, detect_intent (.error e) = "unknown") ∧
    detect_intent (.ok "Explain ") = "explain" ∧
    detect_intent (.ok "banana") = "unknown" := by
  refine ⟨?_, ?_, ?_, fun e => rfl, by decide, by decide⟩
  · intro r
    cases r with
    | error e => simp [detect_intent]
    | ok s =>
      simp only [detect_intent]
      split
      · rename_i hcase
        rcases hcase with h | h
        · exact Or.inl h
        · exact Or.inr (Or.inl h)
      · exact Or.inr (Or.inr rfl)
  · intro s hs
    simp [detect_intent, hs]
  · intro s h1 h2
    simp [detect_intent, h1, h2]

/-- Witness for `detect_intent_contract`: the label cases applied at concrete
replies. -/
theorem detect_intent_contract_witness :
    detect_intent (.ok " LEARN ") = "learn" ∧
    detect_intent (.ok "banana") = "unknown" ∧
    detect_intent (.error "timeout") = "unknown" :=
  ⟨detect_intent_contract.2.1 " LEARN " (Or.inr (by decide)),
   detect_intent_contract.2.2.1 "banana" (by decide) (by decide),
   detect_intent_contract.2.2.2.1 "timeout"⟩

/-! ### Capability handlers — `app/agents/base_agent.py`,
`explainer_agent.py`, `learner_agent.py`, `orchestrator_agent.py` -/

/-- The result dict of a text-producing handler: `success`, the agent's
result key (a string, or Python `None` modelled as `none`), and `error`. -/
structure HandlerResult where
  success : Bool
  payload : Option String
  error : List String
deriving Repr, DecidableEq

/-- `BaseAgent.process_query(query, state)`: one completion call (`gen`); on a
reply it returns `{"success": True, key: content, "error": []}`; on an
exception the boundary catches it and returns
`{"success": False, key: None, "error": [str(e)]}`. -/
def baseProcessQuery (gen : Except String String) : HandlerResult :=
  match gen with
  | .ok content => { success := true, payload := some content, error := [] }
  | .error e => { success := false, payload := none, error := [e] }

/-- `ExplainerAgent.process_query`: system prompt plus user message, one
completion call, same boundary shape as the base handler. -/
def explainerProcessQuery (gen : Except String String) : HandlerResult :=
  match gen with
  | .ok content => { success := true, payload := some content, error := [] }
  | .error e => { success := false, payload := none, error := [e] }

/-- `message.content` of a langchain message (human and tool contents are
plain strings in this code base). -/
def Msg.content : Msg → Content
  | .human c => .str c
  | .ai c _ => c
  | .tool c => .str c

/-- `_extract_text_from_message` (learner module): a plain string content is
returned as is; for a list content every dict block contributes its `"text"`
entry (whatever the block's type) and every plain string contributes itself;
parts that are blank after stripping are dropped and the rest joined with
newlines. -/
def extract_text_from_message (c : Content) : String :=
  match c with
  | .str s => s
  | .blocks bs =>
    String.intercalate "\n" ((bs.map (fun b =>
      match b with
      | .textBlock t => t
      | .strBlock s => s
      | .otherBlock t => t)).filter (fun p => pyStrip p ≠ ""))

/-- `LearnerAgent.process_query`: drives a tool-using agent loop (`run`) and
extracts the final text from the trace's last message
(`result["messages"][-1]`).  On an empty trace that indexing raises
`IndexError("list index out of range")`, caught by the surrounding `try` like
any other exception; `.error e` models an exception anywhere up to and
including the loop. -/
def learnerProcessQuery (run : Except String (List Msg)) : HandlerResult :=
  match run with
  | .error e => { success := false, payload := none, error := [e] }
  | .ok msgs =>
    match msgs.getLast? with
    | none =>
      { success := false, payload := none, error := ["list index out of range"] }
    | some m =>
      { success := true, payload := some (extract_text_from_message m.content),
        error := [] }

/-- The result dict of `OrchestratorAgent.process_query`: the payload under
`orchestrator_result` is the whole invoke result (modelled by its message
list), and a separate `messages` key is present only on success. -/
structure OrchestratorHandlerResult where
  success : Bool
  orchestrator_result : Option (List Msg)
  messages : Option (List Msg)
  error : List String
deriving Repr, DecidableEq

/-- `OrchestratorAgent.process_query`: runs the react-agent loop over the
state's messages; on success stores the invoke result and its message list, on
an exception returns the failure dict (which has no `messages` key). -/
def orchestratorAgentProcessQuery (run : Except String (List Msg)) :
    OrchestratorHandlerResult :=
  match run with
  | .ok result =>
    { success := true, orchestrator_result := some result,
      messages := some result, error := [] }
  | .error e =>
    { success := false, orchestrator_result := none, messages := none,
      error := [e] }

/-- The never-partially-populated contract of a handler result:
`success = true` forces a present payload and an empty error list, and
`success = false` forces an absent payload and a non-empty error list. -/
def WellFormedResult (success payloadPresent : Bool) (error : List String) : Prop :=
  (success = true → payloadPresent = true ∧ error = []) ∧
  (success = false → payloadPresent = false ∧ error ≠ [])

/-- C7: each of the four handlers (base, explainer, learner, orchestrator)
maps an exception of its underlying generation or tool-loop call to
`success := false` with the exception message as the sole error — the
boundary never re-raises, the handlers being total functions of the call's
outcome — and every result they can return satisfies the
never-partially-populated contract. -/
theorem handler_boundary_contract (g gx : Except String String)
    (rl ro : Except String (List Msg)) :
    (∀ e, baseProcessQuery (.error e) =
      { success := false, payload := none, error := [e] }) ∧
    (∀ e, explainerProcessQuery (.error e) =
      { success := false, payload := none, error := [e] }) ∧
    (∀ e, learnerProcessQuery (.error e) =
      { success := false, payload := none, error := [e] }) ∧
    (∀ e, orchestratorAgentProcessQuery (.error e) =
      { success := false, orchestrator_result := none, messages := none,
        error := [e] }) ∧
    WellFormedResult (baseProcessQuery g).success
      (baseProcessQuery g).payload.isSome (baseProcessQuery g).error ∧
    WellFormedResult (explainerProcessQuery gx).success
      (explainerProcessQuery gx).payload.isSome (explainerProcessQuery gx).error ∧
    WellFormedResult (learnerProcessQuery rl).success
      (learnerProcessQuery rl).payload.isSome (learnerProcessQuery rl).error ∧
    WellFormedResult (orchestratorAgentProcessQuery ro).success
      (orchestratorAgentProcessQuery ro).orchestrator_result.isSome
      (orchestratorAgentProcessQuery ro).error := by
  refine ⟨fun e => rfl, fun e => rfl, fun e => rfl, fun e => rfl, ?_, ?_, ?_, ?_⟩
  · cases g <;> simp [baseProcessQuery, WellFormedResult]
  · cases gx <;> simp [explainerProcessQuery, WellFormedResult]
  · cases rl with
    | error e => simp [learnerProcessQuery, WellFormedResult]
    | ok msgs =>
      cases h : msgs.getLast? <;> simp [learnerProcessQuery, h, WellFormedResult]
  · cases ro <;> simp [orchestratorAgentProcessQuery, WellFormedResult]

/-- Witness for `handler_boundary_contract`: the exception case at message
`"boom"`, and the learner contract at the concrete empty trace. -/
theorem handler_boundary_contract_witness :
    baseProcessQuery (.error "boom") =
      { success := false, payload := none, error := ["boom"] } ∧
    ((learnerProcessQuery (.ok [])).payload.isSome = false ∧
      (learnerProcessQuery (.ok [])).error ≠ []) :=
  ⟨(handler_boundary_contract (.ok "a") (.ok "a") (.ok []) (.ok [])).1 "boom",
   ((handler_boundary_contract (.ok "a") (.ok "a") (.ok [])
      (.ok [])).2.2.2.2.2.2.1).2 rfl⟩

/-! ### Conversation store — `app/utils/conversation_store.py` -/

/-- A persisted message dict (`{"role": ..., "content": ...}`). -/
structure PMsg where
  role : String
  content : Content
deriving Repr, DecidableEq

/-- A decoded conversation record: the JSON layout `save_conversation`
writes. Metadata is an association of string keys to string values. -/
structure ConvRecord where
  conversation_id : String
  created_at : String
  updated_at : String
  messages : List PMsg
  metadata : List (String × String)
deriving Repr, DecidableEq

/-- A stored file: its JSON either decodes to a record or fails to decode. -/
inductive FileVal where
  | corrupt
  | good (r : ConvRecord)
deriving Repr, DecidableEq

/-- The storage directory: a flat association of file-name stems to file
contents.  Every write targets `f"{safe_id}.json"`, so the constant `.json`
suffix is dropped from the keys; a key absent from the list is an absent
file (the `.gitkeep` marker is not a `.json` file and is not modelled). -/
abbrev Store := List (String × FileVal)

/-- `_get_conversation_path`: the file-name stem
`conversation_id.replace("/", "_").replace("\\", "_")`. -/
def safeId (conversation_id : String) : String :=
  pyReplaceChar (pyReplaceChar conversation_id '/' '_') '\\' '_'

/-- Look a file up in the directory. -/
def Store.findFile (fs : Store) (k : String) : Option FileVal :=
  (fs.find? (fun e => e.1 = k)).map Prod.snd

/-- Create or overwrite a file. -/
def Store.writeFile (fs : Store) (k : String) (v : FileVal) : Store :=
  (k, v) :: fs.filter (fun e => e.1 ≠ k)

/-- Unlink a file. -/
def Store.removeFile (fs : Store) (k : String) : Store :=
  fs.filter (fun e => e.1 ≠ k)

theorem findFile_writeFile_self (fs : Store) (k : String) (v : FileVal) :
    (fs.writeFile k v).findFile k = some v := by
  simp [Store.writeFile, Store.findFile, List.find?_cons]

theorem findFile_removeFile_self (fs : Store) (k : String) :
    (fs.removeFile k).findFile k = none := by
  induction fs with
  | nil => rfl
  | cons e rest ih =>
    by_cases h : e.1 = k
    · simpa [Store.removeFile, List.filter_cons, h] using ih
    · simp [Store.removeFile, Store.findFile, List.filter_cons, List.find?_cons, h]

/-- The `created_at` a save writes: copied from the existing file when it is
present and decodes (the read sits in a
`try/except (JSONDecodeError, KeyError)`), the fresh `updated_at` (= `now`)
otherwise. -/
def savedCreatedAt (fs : Store) (conversation_id now : String) : String :=
  match fs.findFile (safeId conversation_id) with
  | some (.good existing) => existing.created_at
  | some .corrupt => now
  | none => now

/-- `ConversationStore.save_conversation(conversation_id, messages, metadata)`
executed at wall-clock time `now` (`datetime.now().isoformat()`): a full
record with `updated_at := now`, `metadata := metadata or {}` and the
preserved `created_at`, written over the sanitized key. -/
def save_conversation (fs : Store) (conversation_id : String)
    (messages : List PMsg) (metadata : Option (List (String × String)))
    (now : String) : Store :=
  fs.writeFile (safeId conversation_id)
    (.good { conversation_id := conversation_id,
             created_at := savedCreatedAt fs conversation_id now,
             updated_at := now, messages := messages,
             metadata := metadata.getD [] })

/-- `ConversationStore.load_conversation`: `None` when the file is missing,
and — the read/decode sitting in a `try/except (JSONDecodeError, IOError)` —
also `None` when it fails to decode. -/
def load_conversation (fs : Store) (conversation_id : String) : Option ConvRecord :=
  match fs.findFile (safeId conversation_id) with
  | none => none
  | some .corrupt => none
  | some (.good r) => some r

/-- `ConversationStore.get_messages`: the loaded record's messages, `[]` when
nothing loads. -/
def get_messages (fs : Store) (conversation_id : String) : List PMsg :=
  match load_conversation fs conversation_id with
  | some data => data.messages
  | none => []

/-- `ConversationStore.delete_conversation`: `(deleted, resulting store)`; the
file — even an undecodable one — is unlinked whenever it exists. -/
def delete_conversation (fs : Store) (conversation_id : String) : Bool × Store :=
  match fs.findFile (safeId conversation_id) with
  | some _ => (true, fs.removeFile (safeId conversation_id))
  | none => (false, fs)

/-- A row of `list_conversations`. -/
structure ConvSummary where
  conversation_id : String
  created_at : String
  updated_at : String
  message_count : Nat
deriving Repr, DecidableEq

/-- The summary row built from a decoded record. -/
def summaryOf (r : ConvRecord) : ConvSummary :=
  { conversation_id := r.conversation_id, created_at := r.created_at,
    updated_at := r.updated_at, message_count := r.messages.length }

/-- Stable insertion into a list sorted descending by `updated_at`: the new
row goes in front of the first row whose key it is `>=` under Python string
comparison, so rows with equal keys keep their original order. -/
def insertByUpdatedDesc (x : ConvSummary) : List ConvSummary → List ConvSummary
  | [] => [x]
  | y :: ys =>
    if pyStrLe y.updated_at x.updated_at then x :: y :: ys
    else y :: insertByUpdatedDesc x ys

/-- Python's stable `sort(key=lambda x: x.get("updated_at", ""), reverse=True)`
as a stable insertion sort (the stable descending permutation is unique, so
any stable algorithm is a faithful model). -/
def sortByUpdatedDesc : List ConvSummary → List ConvSummary
  | [] => []
  | x :: xs => insertByUpdatedDesc x (sortByUpdatedDesc xs)

/-- `ConversationStore.list_conversations`: glob every `.json` file, skip
(`continue`) any whose decode raises, collect the summary rows, and sort them
by `updated_at` descending. -/
def list_conversations (fs : Store) : List ConvSummary :=
  sortByUpdatedDesc (fs.filterMap (fun e =>
    match e.2 with
    | .corrupt => none
    | .good r => some (summaryOf r)))

theorem mem_insertByUpdatedDesc (x y : ConvSummary) (l : List ConvSummary) :
    y ∈ insertByUpdatedDesc x l ↔ y = x ∨ y ∈ l := by
  induction l with
  | nil => simp [insertByUpdatedDesc]
  | cons z zs ih =>
    rw [insertByUpdatedDesc]
    split
    · simp
    · simp only [List.mem_cons, ih]
      tauto

theorem mem_sortByUpdatedDesc (y : ConvSummary) (l : List ConvSummary) :
    y ∈ sortByUpdatedDesc l ↔ y ∈ l := by
  induction l with
  | nil => simp [sortByUpdatedDesc]
  | cons x xs ih => simp [sortByUpdatedDesc, mem_insertByUpdatedDesc, ih]

/-- Loading right after a save finds exactly the record the save wrote. -/
theorem load_save (fs : Store) (conversation_id : String) (messages : List PMsg)
    (metadata : Option (List (String × String))) (now : String) :
    load_conversation (save_conversation fs conversation_id messages metadata now)
        conversation_id =
      some { conversation_id := conversation_id,
             created_at := savedCreatedAt fs conversation_id now,
             updated_at := now, messages := messages,
             metadata := metadata.getD [] } := by
  rw [load_conversation, save_conversation, findFile_writeFile_self]

/-- C6: saving and then loading the same conversation id returns a record
whose `messages` equal the saved messages and whose `metadata` contains every
saved entry (it is in fact equal, hence a superset); and a second save on the
same id with different messages keeps the first save's `created_at` (the
loaded record's `created_at` is still `savedCreatedAt fs id now`, computed
from the store as it was before the FIRST save) while refreshing `updated_at`
to the second save's clock `now2`. -/
theorem save_load_round_trip (fs : Store) (id : String) (msgs : List PMsg)
    (meta : List (String × String)) (now : String) (msgs2 : List PMsg)
    (meta2 : Option (List (String × String))) (now2 : String) :
    load_conversation (save_conversation fs id msgs (some meta) now) id =
      some { conversation_id := id, created_at := savedCreatedAt fs id now,
             updated_at := now, messages := msgs, metadata := meta } ∧
    load_conversation
        (save_conversation (save_conversation fs id msgs (some meta) now)
          id msgs2 meta2 now2) id =
      some { conversation_id := id, created_at := savedCreatedAt fs id now,
             updated_at := now2, messages := msgs2, metadata := meta2.getD [] } := by
  refine ⟨load_save fs id msgs (some meta) now, ?_⟩
  rw [load_save (save_conversation fs id msgs (some meta) now) id msgs2 meta2 now2]
  simp only [savedCreatedAt, save_conversation, findFile_writeFile_self]

/-! ### The persistence filter of `MultiAgentWorkflow._save_conversation` (C8) -/

/-- `_save_conversation` (lines 91-103): each `HumanMessage` becomes a `user`
dict; each `AIMessage` with truthy content and no tool calls becomes an
`assistant` dict; everything else (tool messages, assistant messages with
tool calls or falsy content) is dropped. -/
def saveMessages : List Msg → List PMsg
  | [] => []
  | m :: rest =>
    match m with
    | .human c => { role := "user", content := .str c } :: saveMessages rest
    | .ai c tc =>
      if c.isTruthy && !tc then { role := "assistant", content := c } :: saveMessages rest
      else saveMessages rest
    | .tool _ => saveMessages rest

/-- Claim side: is a message one the persisted record keeps? -/
def keptByClaim : Msg → Bool
  | .human _ => true
  | .ai c tc => c.isTruthy && !tc
  | .tool _ => false

/-- Claim side: the persisted dict for a kept message. -/
def renderMsg : Msg → PMsg
  | .human c => { role := "user", content := .str c }
  | .ai c _ => { role := "assistant", content := c }
  | .tool c => { role := "tool", content := .str c }

/-- C8: the message list the coordinator persists is exactly the in-order
sublist of user messages and assistant messages with content and no tool
calls — tool-call and tool-result messages never appear, every persisted row
being a `user` or `assistant` row; and the record a save of that list writes
hands the very same list back to a load. -/
theorem save_filters_tool_traffic (msgs : List Msg) (fs : Store)
    (cid now : String) (meta : Option (List (String × String))) :
    saveMessages msgs = (msgs.filter keptByClaim).map renderMsg ∧
    (∀ p ∈ saveMessages msgs, p.role = "user" ∨ p.role = "assistant") ∧
    get_messages (save_conversation fs cid (saveMessages msgs) meta now) cid =
      (msgs.filter keptByClaim).map renderMsg := by
  have key : saveMessages msgs = (msgs.filter keptByClaim).map renderMsg ∧
      ∀ p ∈ saveMessages msgs, p.role = "user" ∨ p.role = "assistant" := by
    induction msgs with
    | nil => exact ⟨rfl, by simp [saveMessages]⟩
    | cons m rest ih =>
      cases m with
      | human c =>
        refine ⟨?_, ?_⟩
        · simp [saveMessages, keptByClaim, renderMsg, List.filter_cons, ih.1]
        · intro p hp
          rw [saveMessages, List.mem_cons] at hp
          rcases hp with hp | hp
          · exact Or.inl (by rw [hp])
          · exact ih.2 p hp
      | tool c =>
        exact ⟨by simp [saveMessages, keptByClaim, List.filter_cons, ih.1],
          fun p hp => ih.2 p (by rwa [saveMessages] at hp)⟩
      | ai c tc =>
        by_cases hq : (c.isTruthy && !tc) = true
        · refine ⟨?_, ?_⟩
          · simp [saveMessages, keptByClaim, renderMsg, List.filter_cons, hq, ih.1]
          · intro p hp
            rw [saveMessages] at hp
            simp only [hq, if_true, List.mem_cons] at hp
            rcases hp with hp | hp
            · exact Or.inr (by rw [hp])
            · exact ih.2 p hp
        · refine ⟨?_, ?_⟩
          · simp [saveMessages, keptByClaim, List.filter_cons, hq, ih.1]
          · intro p hp
            rw [saveMessages] at hp
            simp only [hq, if_false] at hp
            exact ih.2 p hp
  refine ⟨key.1, key.2, ?_⟩
  rw [get_messages, load_save, ← key.1]

/-- Witness for `save_filters_tool_traffic`: its role conjunct applied to the
user row persisted from a concrete interleaved trace. -/
theorem save_filters_tool_traffic_witness :
    ({ role := "user", content := Content.str "q" } : PMsg).role = "user" ∨
      ({ role := "user", content := Content.str "q" } : PMsg).role = "assistant" :=
  (save_filters_tool_traffic
      [.human "q", .ai (.str "call") true, .tool "result", .ai (.str "ans") false]
      [] "c" "t" none).2.1
    { role := "user", content := .str "q" } (by decide)

/-- C9: the store's read operations fail soft — a missing file loads as
`None`, an undecodable file loads as `None` (the exception is caught, not
propagated), `get_messages` turns a failed load into `[]`, and
`list_conversations` lists exactly the decodable records: every row comes
from a file that decodes, undecodable files being silently omitted. -/
theorem store_reads_fail_soft (fs : Store) (id : String) :
    (fs.findFile (safeId id) = some .corrupt → load_conversation fs id = none) ∧
    (fs.findFile (safeId id) = none → load_conversation fs id = none) ∧
    (load_conversation fs id = none → get_messages fs id = []) ∧
    (∀ s, s ∈ list_conversations fs ↔
      ∃ k r, (k, FileVal.good r) ∈ fs ∧ s = summaryOf r) := by
  refine ⟨fun h => by rw [load_conversation, h], fun h => by rw [load_conversation, h],
    fun h => by rw [get_messages, h], fun s => ?_⟩
  rw [list_conversations, mem_sortByUpdatedDesc, List.mem_filterMap]
  constructor
  · rintro ⟨⟨k, v⟩, hmem, hv⟩
    cases v with
    | corrupt => simp at hv
    | good r =>
      refine ⟨k, r, hmem, ?_⟩
      simpa using hv.symm
  · rintro ⟨k, r, hmem, rfl⟩
    exact ⟨(k, .good r), hmem, rfl⟩

/-- Witness for `store_reads_fail_soft` at a store holding one undecodable
file. -/
theorem store_reads_fail_soft_witness :
    load_conversation [("bad", FileVal.corrupt)] "bad" = none ∧
    get_messages [("bad", FileVal.corrupt)] "bad" = [] := by
  have h := store_reads_fail_soft [("bad", FileVal.corrupt)] "bad"
  exact ⟨h.1 (by decide), h.2.2.1 (h.1 (by decide))⟩

/-- C10: conversation identifiers that sanitize to the same key alias one
record: a save under the first id is seen by `load_conversation`,
`get_messages` and `delete_conversation` under the second, and that delete
removes the record as observed under the first id. -/
theorem sanitized_ids_alias (id1 id2 : String) (h : safeId id1 = safeId id2)
    (fs : Store) (msgs : List PMsg) (meta : Option (List (String × String)))
    (now : String) :
    load_conversation (save_conversation fs id1 msgs meta now) id2 =
      some { conversation_id := id1, created_at := savedCreatedAt fs id1 now,
             updated_at := now, messages := msgs, metadata := meta.getD [] } ∧
    get_messages (save_conversation fs id1 msgs meta now) id2 = msgs ∧
    (delete_conversation (save_conversation fs id1 msgs meta now) id2).1 = true ∧
    load_conversation
      ((delete_conversation (save_conversation fs id1 msgs meta now) id2).2) id1 =
      none := by
  have hload : load_conversation (save_conversation fs id1 msgs meta now) id2 =
      some { conversation_id := id1, created_at := savedCreatedAt fs id1 now,
             updated_at := now, messages := msgs, metadata := meta.getD [] } := by
    rw [load_conversation, ← h, save_conversation, findFile_writeFile_self]
  have hfind : (save_conversation fs id1 msgs meta now).findFile (safeId id2) =
      some (.good { conversation_id := id1, created_at := savedCreatedAt fs id1 now,
                    updated_at := now, messages := msgs, metadata := meta.getD [] }) := by
    rw [← h, save_conversation, findFile_writeFile_self]
  refine ⟨hload, by rw [get_messages, hload], ?_, ?_⟩
  · rw [delete_conversation, hfind]
  · rw [delete_conversation, hfind]
    rw [load_conversation, h, findFile_removeFile_self]

/-- Witness for `sanitized_ids_alias`: `"a/b"` and `"a_b"` address the same
record (and `"a\b"` sanitizes to the same key as both). -/
theorem sanitized_ids_alias_witness :
    get_messages
      (save_conversation [] "a/b" [{ role := "user", content := .str "hi" }] none "t")
      "a_b" = [{ role := "user", content := .str "hi" }] ∧
    safeId "a\\b" = safeId "a/b" :=
  ⟨(sanitized_ids_alias "a/b" "a_b" (by decide) []
      [{ role := "user", content := .str "hi" }] none "t").2.1,
   by decide⟩

end ExamHelper
